import Mathlib

/-!
Shallow embedding of the orbital-mechanics core of the repository:
`src/physics/orbital_mechanics.py` (OrbitalBody with Velocity Verlet
integration), `src/physics/constants.py`, the incremental time-scale
control in `src/main.py`, and the discrete time-scale control in
`src/ui/control_panel.py`.  Numpy float arrays `[x, y]` are modelled as
pairs of real numbers, Python floats as real numbers, Python lists as
Lean lists.
-/

noncomputable section

/-- 2D vector of reals, modelling the numpy float arrays `[x, y]`. -/
@[ext] structure Vec2 where
  x : ℝ
  y : ℝ

namespace Vec2

/-- Elementwise addition, modelling `a + b` on numpy arrays. -/
instance : Add Vec2 := ⟨fun a b => ⟨a.x + b.x, a.y + b.y⟩⟩

/-- Scalar times vector, modelling `c * v` for a numpy array `v`. -/
def smul (c : ℝ) (v : Vec2) : Vec2 := ⟨c * v.x, c * v.y⟩

/-- Vector times scalar, modelling `v * c` for a numpy array `v`. -/
def mulR (v : Vec2) (c : ℝ) : Vec2 := ⟨v.x * c, v.y * c⟩

/-- Vector divided by scalar, modelling `v / c` for a numpy array `v`. -/
def divR (v : Vec2) (c : ℝ) : Vec2 := ⟨v.x / c, v.y / c⟩

/-- Euclidean norm, modelling `np.linalg.norm(v)`. -/
def norm (v : Vec2) : ℝ := Real.sqrt (v.x ^ 2 + v.y ^ 2)

/-- The zero vector, modelling `np.zeros_like(pos)` on a 2-vector. -/
def zero : Vec2 := ⟨0, 0⟩

end Vec2

/-- `G = 6.67430e-11`, from `src/physics/constants.py`. -/
def G : ℝ := 66743 / 10 ^ 15

/-- `EARTH_MASS = 5.972e24`, from `src/physics/constants.py`. -/
def EARTH_MASS : ℝ := 5972 * 10 ^ 21

/-- State of `OrbitalBody` from `src/physics/orbital_mechanics.py`. -/
structure OrbitalBody where
  position : Vec2
  velocity : Vec2
  mass : ℝ
  trajectory : List Vec2
  active : Bool
  current_force : ℝ
  acceleration : Vec2

/-- `OrbitalBody.calculate_acceleration`: a pure function of the position
(the Python method reads nothing from `self`):
`r = np.linalg.norm(pos); if r == 0: return np.zeros_like(pos);
return -G * EARTH_MASS * pos / (r ** 3)`. -/
def calculate_acceleration (pos : Vec2) : Vec2 :=
  let r := pos.norm
  if r = 0 then Vec2.zero else (Vec2.smul (-G * EARTH_MASS) pos).divR (r ^ 3)

/-- `OrbitalBody.__init__(position, velocity, mass=1000.0)`. -/
def OrbitalBody.construct (position velocity : Vec2) (mass : ℝ := 1000.0) :
    OrbitalBody :=
  { position := position
    velocity := velocity
    mass := mass
    trajectory := [position]
    active := true
    current_force := 0.0
    acceleration := calculate_acceleration position }

/-- `OrbitalBody.update(dt)`: Velocity Verlet step, trajectory append with
eviction (`pop(0)` is `List.tail`) once the length exceeds 1000, and the
display-force update `G * EARTH_MASS * mass / r ** 2` (no zero guard). -/
def OrbitalBody.update (b : OrbitalBody) (dt : ℝ) : OrbitalBody :=
  if b.active then
    let velocity₁ := b.velocity + (Vec2.smul 0.5 b.acceleration).mulR dt
    let position₁ := b.position + velocity₁.mulR dt
    let new_acceleration := calculate_acceleration position₁
    let velocity₂ := velocity₁ + (Vec2.smul 0.5 new_acceleration).mulR dt
    let trajectory₁ := b.trajectory ++ [position₁]
    let trajectory₂ := if trajectory₁.length > 1000 then trajectory₁.tail
      else trajectory₁
    let r := position₁.norm
    { position := position₁
      velocity := velocity₂
      mass := b.mass
      trajectory := trajectory₂
      active := b.active
      current_force := G * EARTH_MASS * b.mass / r ^ 2
      acceleration := new_acceleration }
  else b

/-- A sequence of `update` calls with the given time steps, first step
first. -/
def OrbitalBody.updates (b : OrbitalBody) (dts : List ℝ) : OrbitalBody :=
  dts.foldl OrbitalBody.update b

/-- The positions taken after each of the given update steps, in order. -/
def stepPositions : OrbitalBody → List ℝ → List Vec2
  | _, [] => []
  | b, dt :: rest => (b.update dt).position :: stepPositions (b.update dt) rest

/-- The full position history of a run: the starting position followed by
the position after each step. -/
def posHistory (b : OrbitalBody) (dts : List ℝ) : List Vec2 :=
  b.position :: stepPositions b dts

/-! Incremental time-scale control from `src/main.py`: `+` sets
`time_scale = min(MAX_TIME_SCALE, time_scale + TIME_SCALE_CHANGE)`, `-`
sets `time_scale = max(MIN_TIME_SCALE, time_scale - TIME_SCALE_CHANGE)`,
starting from `time_scale = 1.0`. -/

/-- `TIME_SCALE_CHANGE = 0.5` from `src/main.py`. -/
def TIME_SCALE_CHANGE : ℝ := 5 / 10

/-- `MIN_TIME_SCALE = 0.1` from `src/main.py`. -/
def MIN_TIME_SCALE : ℝ := 1 / 10

/-- `MAX_TIME_SCALE = 10.0` from `src/main.py`. -/
def MAX_TIME_SCALE : ℝ := 10

/-- The discrete key events of `main` that change the time scale:
`+`/`=` (increment) and `-` (decrement). -/
inductive MainEvent where
  | inc
  | dec

/-- Effect of one key event on `time_scale` in `main`. -/
def applyMainEvent (time_scale : ℝ) : MainEvent → ℝ
  | .inc => min MAX_TIME_SCALE (time_scale + TIME_SCALE_CHANGE)
  | .dec => max MIN_TIME_SCALE (time_scale - TIME_SCALE_CHANGE)

/-- `time_scale` after a sequence of key events, starting from the
initial value `1.0` set in `main`. -/
def timeScaleAfter (events : List MainEvent) : ℝ :=
  events.foldl applyMainEvent 1.0

/-! Discrete time-scale control from `src/ui/control_panel.py`. -/

/-- `TIME_SCALE = SIMULATION_DURATION / REAL_TIME_DURATION = 86400 / 60`
from `src/physics/constants.py`. -/
def TIME_SCALE : ℝ := 86400 / 60

/-- `self.time_scales = [TIME_SCALE/4, TIME_SCALE/2, TIME_SCALE,
TIME_SCALE*2]` from `ControlPanel.__init__`. -/
def time_scales : List ℝ :=
  [TIME_SCALE / 4, TIME_SCALE / 2, TIME_SCALE, TIME_SCALE * 2]

/-- The mutable time-scale state of `ControlPanel`: the index into
`time_scales` and the paused flag. -/
structure ControlPanel where
  current_time_scale_index : ℕ
  paused : Bool

/-- `ControlPanel.__init__`: `current_time_scale_index = 2`,
`paused = False`. -/
def ControlPanel.init : ControlPanel :=
  { current_time_scale_index := 2, paused := false }

/-- `ControlPanel._toggle_pause`. -/
def ControlPanel.toggle_pause (p : ControlPanel) : ControlPanel :=
  { p with paused := !p.paused }

/-- `ControlPanel._cycle_time_scale`:
`current_time_scale_index = (current_time_scale_index + 1) % len(time_scales)`. -/
def ControlPanel.cycle_time_scale (p : ControlPanel) : ControlPanel :=
  { p with
    current_time_scale_index :=
      (p.current_time_scale_index + 1) % time_scales.length }

/-- The closest-index loop of `ControlPanel.set_time_scale`:
`for i, ts in enumerate(self.time_scales): if abs(ts - time_scale) <
min_diff: min_diff = ...; closest_index = i`, carried as an accumulator
`(closest_index, min_diff)` with `i` the index of the list head. -/
def closestLoop (time_scale : ℝ) : List ℝ → ℕ → ℕ × ℝ → ℕ × ℝ
  | [], _, acc => acc
  | ts :: rest, i, acc =>
    if |ts - time_scale| < acc.2 then
      closestLoop time_scale rest (i + 1) (i, |ts - time_scale|)
    else
      closestLoop time_scale rest (i + 1) acc

/-- `ControlPanel.set_time_scale`: start with `closest_index = 0`,
`min_diff = abs(time_scales[0] - time_scale)`, run the loop over the
whole list. -/
def ControlPanel.set_time_scale (p : ControlPanel) (time_scale : ℝ) :
    ControlPanel :=
  { p with
    current_time_scale_index :=
      (closestLoop time_scale time_scales 0
        (0, |time_scales.getD 0 0 - time_scale|)).1 }

/-- `ControlPanel.get_time_scale`: `0.0` when paused, otherwise
`time_scales[current_time_scale_index]`. -/
def ControlPanel.get_time_scale (p : ControlPanel) : ℝ :=
  if p.paused then 0.0 else time_scales.getD p.current_time_scale_index 0

/-- The discrete control events of the panel that affect the time
scale. -/
inductive PanelEvent where
  | togglePause
  | cycleSpeed
  | setTimeScale (ts : ℝ)

/-- Effect of one panel event. -/
def ControlPanel.applyEvent (p : ControlPanel) : PanelEvent → ControlPanel
  | .togglePause => p.toggle_pause
  | .cycleSpeed => p.cycle_time_scale
  | .setTimeScale ts => p.set_time_scale ts

/-- Panel state after a sequence of control events. -/
def ControlPanel.applyEvents (p : ControlPanel) (events : List PanelEvent) :
    ControlPanel :=
  events.foldl ControlPanel.applyEvent p

/-- A velocity chosen so that a body constructed at position `(3, 4)`
drifts exactly onto the origin in one Verlet step with `dt = 1`. -/
def badVelocity : Vec2 :=
  ⟨-3 + 3 * (G * EARTH_MASS) / 250, -4 + 2 * (G * EARTH_MASS) / 125⟩

/-- A body constructed at the non-origin position `(3, 4)` whose first
update step lands exactly on the origin. -/
def badBody : OrbitalBody := OrbitalBody.construct ⟨3, 4⟩ badVelocity 1000

theorem Vec2.add_def (a b : Vec2) : a + b = ⟨a.x + b.x, a.y + b.y⟩ := rfl

/-! Basic facts about `update`. -/

theorem OrbitalBody.update_active (b : OrbitalBody) (dt : ℝ) :
    (b.update dt).active = b.active := by
  by_cases h : b.active <;> simp [OrbitalBody.update, h]

theorem OrbitalBody.update_mass (b : OrbitalBody) (dt : ℝ) :
    (b.update dt).mass = b.mass := by
  by_cases h : b.active <;> simp [OrbitalBody.update, h]

/-- C1: on an active body, `update dt` performs exactly the Velocity
Verlet sequence: half-kick with the stored acceleration, drift, new
acceleration at the new position, second half-kick, and the new
acceleration is stored; the stored acceleration is initialized at
construction from the initial position. -/
theorem update_verlet_sequence :
    (∀ (p v : Vec2) (m : ℝ),
      (OrbitalBody.construct p v m).acceleration = calculate_acceleration p) ∧
    ∀ (b : OrbitalBody) (dt : ℝ), b.active = true →
      (b.update dt).position =
        b.position + (b.velocity + (Vec2.smul 0.5 b.acceleration).mulR dt).mulR dt ∧
      (b.update dt).acceleration =
        calculate_acceleration ((b.update dt).position) ∧
      (b.update dt).velocity =
        b.velocity + (Vec2.smul 0.5 b.acceleration).mulR dt +
          (Vec2.smul 0.5 (calculate_acceleration
            (b.position +
              (b.velocity + (Vec2.smul 0.5 b.acceleration).mulR dt).mulR dt))).mulR dt := by
  refine ⟨fun p v m => rfl, fun b dt h => ?_⟩
  refine ⟨?_, ?_, ?_⟩ <;> simp [OrbitalBody.update, h]

theorem update_verlet_sequence_witness :
    (OrbitalBody.construct ⟨1, 0⟩ ⟨0, 1⟩ 1000).active = true ∧
    ((OrbitalBody.construct ⟨1, 0⟩ ⟨0, 1⟩ 1000).update 2).acceleration =
      calculate_acceleration
        (((OrbitalBody.construct ⟨1, 0⟩ ⟨0, 1⟩ 1000).update 2).position) :=
  ⟨rfl, (update_verlet_sequence.2 _ 2 rfl).2.1⟩

/-- C2: `calculate_acceleration pos` is the zero vector when the norm of
`pos` is zero, and otherwise equals `-G * EARTH_MASS * pos / |pos|^3`
with `G = 6.67430e-11` and `EARTH_MASS = 5.972e24` written out as exact
rationals. -/
theorem calculate_acceleration_spec (pos : Vec2) :
    (pos.norm = 0 → calculate_acceleration pos = Vec2.zero) ∧
    (pos.norm ≠ 0 → calculate_acceleration pos =
      (Vec2.smul (-(66743 / 10 ^ 15) * (5972 * 10 ^ 21)) pos).divR
        (pos.norm ^ 3)) := by
  constructor
  · intro h
    simp [calculate_acceleration, h]
  · intro h
    simp [calculate_acceleration, h, G, EARTH_MASS]

theorem calculate_acceleration_spec_witness :
    (Vec2.norm ⟨0, 0⟩ = 0 ∧ calculate_acceleration ⟨0, 0⟩ = Vec2.zero) ∧
    (Vec2.norm ⟨3, 4⟩ ≠ 0 ∧ calculate_acceleration ⟨3, 4⟩ =
      (Vec2.smul (-(66743 / 10 ^ 15) * (5972 * 10 ^ 21)) ⟨3, 4⟩).divR
        (Vec2.norm ⟨3, 4⟩ ^ 3)) := by
  have h0 : Vec2.norm ⟨0, 0⟩ = 0 := by simp [Vec2.norm]
  have h34 : Vec2.norm ⟨3, 4⟩ ≠ 0 := by
    have hpos : (0 : ℝ) < Vec2.norm ⟨3, 4⟩ := by
      simp only [Vec2.norm]
      exact Real.sqrt_pos.mpr (by norm_num)
    exact hpos.ne'
  exact ⟨⟨h0, (calculate_acceleration_spec _).1 h0⟩,
    ⟨h34, (calculate_acceleration_spec _).2 h34⟩⟩

/-- C3: on a body with `active = false`, `update` returns the body
unchanged in every field and performs no computation. -/
theorem inactive_update_noop (b : OrbitalBody) (dt : ℝ)
    (h : b.active = false) : b.update dt = b := by
  simp [OrbitalBody.update, h]

theorem inactive_update_noop_witness :
    ({ OrbitalBody.construct ⟨1, 0⟩ ⟨0, 1⟩ 1000 with
        active := false } : OrbitalBody).active = false ∧
    ({ OrbitalBody.construct ⟨1, 0⟩ ⟨0, 1⟩ 1000 with
        active := false } : OrbitalBody).update 2 =
      { OrbitalBody.construct ⟨1, 0⟩ ⟨0, 1⟩ 1000 with active := false } :=
  ⟨rfl, inactive_update_noop _ 2 rfl⟩

/-- C10: after `update dt` on an active body, `current_force` equals
`G * EARTH_MASS * mass / r ^ 2` evaluated at the post-step position;
the equation holds with no zero guard on `r`, unlike
`calculate_acceleration`. -/
theorem update_current_force (b : OrbitalBody) (dt : ℝ)
    (h : b.active = true) :
    (b.update dt).current_force =
      G * EARTH_MASS * b.mass / ((b.update dt).position).norm ^ 2 := by
  refine Eq.trans ?_ rfl
  simp [OrbitalBody.update, h]

theorem OrbitalBody.update_trajectory (b : OrbitalBody) (dt : ℝ)
    (h : b.active = true) (hL : b.trajectory.length ≤ 1000) :
    (b.update dt).trajectory =
      (b.trajectory ++ [(b.update dt).position]).drop
        ((b.trajectory.length + 1) - 1000) := by
  by_cases hlen : b.trajectory.length + 1 > 1000
  · have h1000 : b.trajectory.length = 1000 := by omega
    have hk : b.trajectory.length + 1 - 1000 = 1 := by omega
    simp only [OrbitalBody.update, h, if_true, hk, List.drop_one]
    simp [h1000]
  · have hk : b.trajectory.length + 1 - 1000 = 0 := by omega
    simp only [OrbitalBody.update, h, if_true, hk, List.drop_zero]
    have : ¬ (b.trajectory ++ [(b.update dt).position]).length > 1000 := by
      simp only [List.length_append, List.length_singleton]
      omega
    simp only [List.length_append, List.length_singleton]
    rw [if_neg (by omega)]

theorem OrbitalBody.update_trajectory_length (b : OrbitalBody) (dt : ℝ)
    (h : b.active = true) (hL : b.trajectory.length ≤ 1000) :
    (b.update dt).trajectory.length = min (b.trajectory.length + 1) 1000 := by
  rw [b.update_trajectory dt h hL]
  simp only [List.length_drop, List.length_append, List.length_singleton]
  omega

theorem stepPositions_length :
    ∀ (dts : List ℝ) (b : OrbitalBody), (stepPositions b dts).length = dts.length
  | [], _ => rfl
  | _ :: rest, b => by
    simp [stepPositions, stepPositions_length rest]

theorem drop_append_drop {α : Type} (X S : List α) (k j : ℕ)
    (hk : k ≤ X.length) :
    (X.drop k ++ S).drop j = (X ++ S).drop (k + j) := by
  rw [← List.drop_append_of_le_length hk, List.drop_drop]

theorem updates_trajectory_inv :
    ∀ (dts : List ℝ) (b : OrbitalBody), b.active = true →
      b.trajectory.length ≤ 1000 →
      (b.updates dts).trajectory =
        (b.trajectory ++ stepPositions b dts).drop
          ((b.trajectory.length + dts.length) - 1000)
  | [], b, _, hL => by
    simp only [OrbitalBody.updates, List.foldl_nil, stepPositions,
      List.append_nil, List.length_nil, Nat.add_zero]
    rw [Nat.sub_eq_zero_of_le hL, List.drop_zero]
  | dt :: rest, b, h, hL => by
    have hact : (b.update dt).active = true := by
      rw [b.update_active dt]; exact h
    have hlen : (b.update dt).trajectory.length ≤ 1000 := by
      rw [b.update_trajectory_length dt h hL]; omega
    have IH := updates_trajectory_inv rest (b.update dt) hact hlen
    have hstep : b.updates (dt :: rest) = (b.update dt).updates rest := rfl
    rw [hstep, IH, b.update_trajectory_length dt h hL,
      b.update_trajectory dt h hL,
      drop_append_drop _ _ _ _
        (by simp only [List.length_append, List.length_singleton]; omega)]
    have harith : (b.trajectory.length + 1 - 1000) +
        (min (b.trajectory.length + 1) 1000 + rest.length - 1000) =
        b.trajectory.length + (rest.length + 1) - 1000 := by omega
    rw [harith]
    have hlist : b.trajectory ++ [(b.update dt).position] ++
        stepPositions (b.update dt) rest =
        b.trajectory ++ stepPositions b (dt :: rest) := by
      rw [List.append_assoc]
      rfl
    rw [hlist, List.length_cons]

theorem posHistory_length (b : OrbitalBody) (dts : List ℝ) :
    (posHistory b dts).length = dts.length + 1 := by
  simp [posHistory, stepPositions_length]

/-- C4: for a body constructed at `p` followed by any sequence of update
steps, the trajectory is the suffix of the full position history obtained
by dropping all but the most recent 1000 entries (oldest first); hence
its length never exceeds 1000, and its first entry is the construction
position as long as at most 999 updates have been applied. -/
theorem trajectory_bounded_history (p v : Vec2) (m : ℝ) (dts : List ℝ) :
    ((OrbitalBody.construct p v m).updates dts).trajectory =
      (posHistory (OrbitalBody.construct p v m) dts).drop
        ((dts.length + 1) - 1000) ∧
    ((OrbitalBody.construct p v m).updates dts).trajectory.length ≤ 1000 ∧
    (dts.length ≤ 999 →
      ((OrbitalBody.construct p v m).updates dts).trajectory.head? =
        some p) := by
  have hinv := updates_trajectory_inv dts (OrbitalBody.construct p v m) rfl
    (by simp [OrbitalBody.construct])
  have htr : (OrbitalBody.construct p v m).trajectory = [p] := rfl
  rw [htr] at hinv
  simp only [List.length_singleton] at hinv
  have hph : ([p] ++ stepPositions (OrbitalBody.construct p v m) dts) =
      posHistory (OrbitalBody.construct p v m) dts := rfl
  rw [hph, Nat.add_comm 1 dts.length] at hinv
  refine ⟨hinv, ?_, ?_⟩
  · rw [hinv]
    simp only [List.length_drop, posHistory_length]
    omega
  · intro hk
    rw [hinv, Nat.sub_eq_zero_of_le (by omega), List.drop_zero]
    rfl

theorem trajectory_bounded_history_witness :
    ([] : List ℝ).length ≤ 999 ∧
    ((OrbitalBody.construct ⟨1, 0⟩ ⟨0, 1⟩ 1000).updates []).trajectory.head? =
      some ⟨1, 0⟩ :=
  ⟨by decide, (trajectory_bounded_history ⟨1, 0⟩ ⟨0, 1⟩ 1000 []).2.2
    (by decide)⟩

theorem update_congr_mass (b₁ b₂ : OrbitalBody) (dt : ℝ)
    (hp : b₁.position = b₂.position) (hv : b₁.velocity = b₂.velocity)
    (ha : b₁.acceleration = b₂.acceleration)
    (ht : b₁.trajectory = b₂.trajectory) (hact : b₁.active = b₂.active) :
    (b₁.update dt).position = (b₂.update dt).position ∧
    (b₁.update dt).velocity = (b₂.update dt).velocity ∧
    (b₁.update dt).acceleration = (b₂.update dt).acceleration ∧
    (b₁.update dt).trajectory = (b₂.update dt).trajectory ∧
    (b₁.update dt).active = (b₂.update dt).active := by
  by_cases h : b₂.active = true
  · have h₁ : b₁.active = true := by rw [hact]; exact h
    refine ⟨?_, ?_, ?_, ?_, ?_⟩ <;>
      simp [OrbitalBody.update, h, h₁, hp, hv, ha, ht, hact]
  · have h₁ : ¬ b₁.active = true := by rw [hact]; exact h
    simp only [OrbitalBody.update, if_neg h, if_neg h₁]
    exact ⟨hp, hv, ha, ht, hact⟩

theorem updates_congr_mass :
    ∀ (dts : List ℝ) (b₁ b₂ : OrbitalBody),
      b₁.position = b₂.position → b₁.velocity = b₂.velocity →
      b₁.acceleration = b₂.acceleration → b₁.trajectory = b₂.trajectory →
      b₁.active = b₂.active →
      (b₁.updates dts).position = (b₂.updates dts).position ∧
      (b₁.updates dts).velocity = (b₂.updates dts).velocity ∧
      (b₁.updates dts).acceleration = (b₂.updates dts).acceleration ∧
      (b₁.updates dts).trajectory = (b₂.updates dts).trajectory ∧
      (b₁.updates dts).active = (b₂.updates dts).active
  | [], _, _, hp, hv, ha, ht, hact => ⟨hp, hv, ha, ht, hact⟩
  | dt :: rest, b₁, b₂, hp, hv, ha, ht, hact => by
    obtain ⟨hp1, hv1, ha1, ht1, hact1⟩ := update_congr_mass b₁ b₂ dt hp hv ha ht hact
    exact updates_congr_mass rest (b₁.update dt) (b₂.update dt) hp1 hv1 ha1 ht1 hact1

/-- C7: two bodies constructed with the same position and velocity but
arbitrary (possibly different) masses agree on position, velocity,
acceleration and trajectory after any identical sequence of updates:
mass does not affect the motion. -/
theorem mass_does_not_affect_motion (p v : Vec2) (m₁ m₂ : ℝ)
    (dts : List ℝ) :
    ((OrbitalBody.construct p v m₁).updates dts).position =
      ((OrbitalBody.construct p v m₂).updates dts).position ∧
    ((OrbitalBody.construct p v m₁).updates dts).velocity =
      ((OrbitalBody.construct p v m₂).updates dts).velocity ∧
    ((OrbitalBody.construct p v m₁).updates dts).acceleration =
      ((OrbitalBody.construct p v m₂).updates dts).acceleration ∧
    ((OrbitalBody.construct p v m₁).updates dts).trajectory =
      ((OrbitalBody.construct p v m₂).updates dts).trajectory := by
  obtain ⟨hp, hv, ha, ht, _⟩ := updates_congr_mass dts
    (OrbitalBody.construct p v m₁) (OrbitalBody.construct p v m₂)
    rfl rfl rfl rfl rfl
  exact ⟨hp, hv, ha, ht⟩

theorem mainStep_in_range (ts : ℝ) (e : MainEvent)
    (h1 : MIN_TIME_SCALE ≤ ts) (h2 : ts ≤ MAX_TIME_SCALE) :
    MIN_TIME_SCALE ≤ applyMainEvent ts e ∧
    applyMainEvent ts e ≤ MAX_TIME_SCALE := by
  cases e
  · constructor
    · refine le_min ?_ ?_
      · norm_num [MIN_TIME_SCALE, MAX_TIME_SCALE]
      · have : (0 : ℝ) < TIME_SCALE_CHANGE := by norm_num [TIME_SCALE_CHANGE]
        linarith
    · exact min_le_left _ _
  · constructor
    · exact le_max_left _ _
    · refine max_le ?_ ?_
      · norm_num [MIN_TIME_SCALE, MAX_TIME_SCALE]
      · have : (0 : ℝ) < TIME_SCALE_CHANGE := by norm_num [TIME_SCALE_CHANGE]
        linarith

theorem mainFold_in_range :
    ∀ (es : List MainEvent) (ts : ℝ), MIN_TIME_SCALE ≤ ts →
      ts ≤ MAX_TIME_SCALE →
      MIN_TIME_SCALE ≤ es.foldl applyMainEvent ts ∧
      es.foldl applyMainEvent ts ≤ MAX_TIME_SCALE
  | [], _, h1, h2 => ⟨h1, h2⟩
  | e :: rest, ts, h1, h2 => by
    obtain ⟨g1, g2⟩ := mainStep_in_range ts e h1 h2
    exact mainFold_in_range rest _ g1 g2

theorem closestLoop_lt (ts : ℝ) :
    ∀ (l : List ℝ) (i : ℕ) (acc : ℕ × ℝ) (B : ℕ), acc.1 < B →
      i + l.length ≤ B → (closestLoop ts l i acc).1 < B
  | [], _, _, _, hacc, _ => hacc
  | s :: rest, i, acc, B, hacc, hlen => by
    simp only [List.length_cons] at hlen
    simp only [closestLoop]
    by_cases hcond : |s - ts| < acc.2
    · rw [if_pos hcond]
      exact closestLoop_lt ts rest (i + 1) (i, |s - ts|) B (by omega) (by omega)
    · rw [if_neg hcond]
      exact closestLoop_lt ts rest (i + 1) acc B hacc (by omega)

theorem time_scales_length : time_scales.length = 4 := rfl

theorem applyEvent_idx (p : ControlPanel) (e : PanelEvent)
    (h : p.current_time_scale_index < 4) :
    (p.applyEvent e).current_time_scale_index < 4 := by
  cases e with
  | togglePause => exact h
  | cycleSpeed =>
    show (p.current_time_scale_index + 1) % time_scales.length < 4
    rw [time_scales_length]
    exact Nat.mod_lt _ (by norm_num)
  | setTimeScale ts =>
    refine closestLoop_lt ts time_scales 0 _ 4 (by norm_num) ?_
    rw [time_scales_length]

theorem applyEvents_idx :
    ∀ (ps : List PanelEvent) (p : ControlPanel),
      p.current_time_scale_index < 4 →
      (p.applyEvents ps).current_time_scale_index < 4
  | [], _, h => h
  | e :: rest, p, h => applyEvents_idx rest (p.applyEvent e) (applyEvent_idx p e h)

theorem time_scales_getD_mem (i : ℕ) (h : i < 4) :
    time_scales.getD i 0 ∈ time_scales := by
  interval_cases i <;> simp [time_scales]

theorem time_scales_pos : ∀ x ∈ time_scales, 0 < x := by
  intro x hx
  simp only [time_scales, TIME_SCALE, List.mem_cons, List.mem_singleton,
    List.not_mem_nil, or_false] at hx
  rcases hx with h | h | h | h <;> rw [h] <;> norm_num

/-- C8: in the incremental variant of `main`, the time scale stays in
the clamped range `[0.1, 10.0]` after every sequence of increment and
decrement events starting from `1.0`; in the discrete `ControlPanel`
variant, `get_time_scale` returns `0` exactly when paused and otherwise
one of the fixed values `TIME_SCALE/4`, `TIME_SCALE/2`, `TIME_SCALE`,
`TIME_SCALE*2`, after every sequence of control events from the initial
state. -/
theorem time_scale_always_valid (es : List MainEvent)
    (ps : List PanelEvent) :
    (MIN_TIME_SCALE ≤ timeScaleAfter es ∧
      timeScaleAfter es ≤ MAX_TIME_SCALE) ∧
    ((ControlPanel.init.applyEvents ps).get_time_scale = 0 ↔
      (ControlPanel.init.applyEvents ps).paused = true) ∧
    ((ControlPanel.init.applyEvents ps).paused = false →
      (ControlPanel.init.applyEvents ps).get_time_scale ∈ time_scales) := by
  have hrange := mainFold_in_range es 1.0
    (by norm_num [MIN_TIME_SCALE]) (by norm_num [MAX_TIME_SCALE])
  have hidx := applyEvents_idx ps ControlPanel.init (by norm_num [ControlPanel.init])
  refine ⟨hrange, ?_, ?_⟩
  · constructor
    · intro h0
      by_contra hp
      have hp' : (ControlPanel.init.applyEvents ps).paused = false :=
        Bool.not_eq_true _ ▸ (by simpa using hp)
      rw [ControlPanel.get_time_scale, if_neg (by simp [hp'])] at h0
      have := time_scales_pos _ (time_scales_getD_mem _ hidx)
      rw [h0] at this
      exact lt_irrefl _ this
    · intro hp
      simp only [ControlPanel.get_time_scale, hp, if_true]
      norm_num
  · intro hp
    rw [ControlPanel.get_time_scale, if_neg (by simp [hp])]
    exact time_scales_getD_mem _ hidx

theorem time_scale_always_valid_witness :
    (ControlPanel.init.applyEvents []).paused = false ∧
    (ControlPanel.init.applyEvents []).get_time_scale ∈ time_scales :=
  ⟨rfl, (time_scale_always_valid [] []).2.2 rfl⟩

theorem update_position_eq (b : OrbitalBody) (dt : ℝ) (h : b.active = true) :
    (b.update dt).position =
      b.position + (b.velocity + (Vec2.smul 0.5 b.acceleration).mulR dt).mulR dt := by
  simp [OrbitalBody.update, h]

/-- C6 counterexample: on a freshly constructed (active) body, `update 0`
does change the trajectory: a duplicate point is appended, so the length
grows from 1 to 2. -/
theorem dt_zero_changes_trajectory :
    ((OrbitalBody.construct ⟨1, 0⟩ ⟨0, 1⟩ 1000).update 0).trajectory ≠
      (OrbitalBody.construct ⟨1, 0⟩ ⟨0, 1⟩ 1000).trajectory := by
  have h2 :
      ((OrbitalBody.construct ⟨1, 0⟩ ⟨0, 1⟩ 1000).update 0).trajectory.length = 2 := by
    simp [OrbitalBody.update, OrbitalBody.construct]
  have h1 :
      (OrbitalBody.construct ⟨1, 0⟩ ⟨0, 1⟩ 1000).trajectory.length = 1 := rfl
  intro hEq
  rw [hEq, h1] at h2
  exact absurd h2 (by norm_num)

/-- C6 (amended): `update` accepts any real `dt` (including zero and
negative values); `update 0` on an active body leaves position and
velocity unchanged, but appends a duplicate trajectory point, evicting
the oldest one when the cap is exceeded. -/
theorem dt_zero_update (b : OrbitalBody) (h : b.active = true) :
    (b.update 0).position = b.position ∧
    (b.update 0).velocity = b.velocity ∧
    (b.update 0).trajectory =
      (if (b.trajectory ++ [b.position]).length > 1000 then
        (b.trajectory ++ [b.position]).tail
      else b.trajectory ++ [b.position]) := by
  refine ⟨?_, ?_, ?_⟩ <;>
    simp [OrbitalBody.update, h, Vec2.mulR, Vec2.smul, Vec2.add_def]

theorem dt_zero_update_witness :
    (OrbitalBody.construct ⟨1, 0⟩ ⟨0, 1⟩ 1000).active = true ∧
    ((OrbitalBody.construct ⟨1, 0⟩ ⟨0, 1⟩ 1000).update 0).position =
      (OrbitalBody.construct ⟨1, 0⟩ ⟨0, 1⟩ 1000).position :=
  ⟨rfl, (dt_zero_update _ rfl).1⟩

theorem norm_three_four : Vec2.norm ⟨3, 4⟩ = 5 := by
  show Real.sqrt ((3 : ℝ) ^ 2 + (4 : ℝ) ^ 2) = 5
  rw [show ((3 : ℝ) ^ 2 + (4 : ℝ) ^ 2) = 5 ^ 2 by norm_num,
    Real.sqrt_sq (by norm_num : (0 : ℝ) ≤ 5)]

theorem badBody_acceleration :
    badBody.acceleration = (Vec2.smul (-G * EARTH_MASS) ⟨3, 4⟩).divR (5 ^ 3) := by
  show calculate_acceleration ⟨3, 4⟩ = _
  simp only [calculate_acceleration, norm_three_four]
  rw [if_neg (by norm_num : ¬ (5 : ℝ) = 0)]

theorem badBody_update_position : (badBody.update 1).position = ⟨0, 0⟩ := by
  rw [update_position_eq badBody 1 rfl, badBody_acceleration]
  show (⟨3, 4⟩ : Vec2) +
      (badVelocity +
        (Vec2.smul 0.5 ((Vec2.smul (-G * EARTH_MASS) ⟨3, 4⟩).divR (5 ^ 3))).mulR 1).mulR 1 =
    ⟨0, 0⟩
  simp only [badVelocity, Vec2.add_def, Vec2.mulR, Vec2.smul, Vec2.divR,
    Vec2.mk.injEq]
  constructor <;> ring

theorem badBody_update_norm :
    Vec2.norm ((badBody.update 1).position) = 0 := by
  rw [badBody_update_position]
  show Real.sqrt ((0 : ℝ) ^ 2 + (0 : ℝ) ^ 2) = 0
  rw [show ((0 : ℝ) ^ 2 + (0 : ℝ) ^ 2) = 0 by norm_num]
  exact Real.sqrt_zero

/-- C9 counterexample: `badBody` is constructed at the non-origin
position `(3, 4)`, yet after a single `update 1` its position is exactly
the coordinate origin. -/
theorem position_reaches_origin :
    Vec2.norm badBody.position ≠ 0 ∧
    Vec2.norm ((badBody.update 1).position) = 0 := by
  constructor
  · show Vec2.norm ⟨3, 4⟩ ≠ 0
    rw [norm_three_four]
    norm_num
  · exact badBody_update_norm

/-- C9 (amended): a body constructed at a non-origin position starts at
a non-origin position, but `update` does not preserve this: the
post-step position can be exactly the origin; whenever that happens the
newly stored acceleration is the zero vector (the `r == 0` guard). -/
theorem origin_only_guarded :
    (∀ (p v : Vec2) (m : ℝ), Vec2.norm p ≠ 0 →
      Vec2.norm (OrbitalBody.construct p v m).position ≠ 0) ∧
    (∀ (b : OrbitalBody) (dt : ℝ), b.active = true →
      Vec2.norm ((b.update dt).position) = 0 →
      (b.update dt).acceleration = Vec2.zero) := by
  constructor
  · intro p v m h
    exact h
  · intro b dt h h0
    have hacc : (b.update dt).acceleration =
        calculate_acceleration ((b.update dt).position) := by
      simp [OrbitalBody.update, h]
    rw [hacc, calculate_acceleration]
    simp [h0]

theorem origin_only_guarded_witness :
    (Vec2.norm ⟨3, 4⟩ ≠ 0 ∧
      Vec2.norm (OrbitalBody.construct ⟨3, 4⟩ ⟨0, 0⟩ 1000).position ≠ 0) ∧
    (badBody.active = true ∧
      Vec2.norm ((badBody.update 1).position) = 0 ∧
      (badBody.update 1).acceleration = Vec2.zero) := by
  have h34 : Vec2.norm ⟨3, 4⟩ ≠ 0 := by
    rw [norm_three_four]
    norm_num
  exact ⟨⟨h34, origin_only_guarded.1 ⟨3, 4⟩ ⟨0, 0⟩ 1000 h34⟩,
    rfl, badBody_update_norm,
    origin_only_guarded.2 badBody 1 rfl badBody_update_norm⟩

theorem update_current_force_witness :
    (OrbitalBody.construct ⟨1, 0⟩ ⟨0, 1⟩ 1000).active = true ∧
    ((OrbitalBody.construct ⟨1, 0⟩ ⟨0, 1⟩ 1000).update 2).current_force =
      G * EARTH_MASS * (OrbitalBody.construct ⟨1, 0⟩ ⟨0, 1⟩ 1000).mass /
        (((OrbitalBody.construct ⟨1, 0⟩ ⟨0, 1⟩ 1000).update 2).position).norm ^ 2 :=
  ⟨rfl, update_current_force _ 2 rfl⟩
